import Mathlib

/-!
Shallow embedding of the fitness-centre dashboard (src/app.py): a SQLite-backed
CRUD application over three tables, MEMBER, MEMBER_ASSESSMENT and
MEMBER_CONDITION, together with the dashboard aggregation metrics.

Tables are embedded as Lean lists of rows in rowid (insertion) order; SQL
statements become pure list transformations.  Real-valued columns are embedded
as rationals, NULLable columns as `Option`, ISO-8601 dates as naturals ordered
chronologically (ISO strings compare lexicographically, hence chronologically).
UI handlers that catch exceptions are embedded as `Except`-valued operations.
-/

namespace FitnessCentre

/-- A row of the MEMBER table: EMAIL, FIRST_NAME, LAST_NAME, GENDER. -/
structure MemberRow where
  email : String
  first_name : String
  last_name : String
  gender : String
deriving DecidableEq

/-- A row of the MEMBER_ASSESSMENT table: EMAIL, ASSESSMENT_DATE and five
NULLable numeric metrics (HEIGHT, BMI, BLOOD_PRESSURE, HEART_RATE, WEIGHT). -/
structure AssessmentRow where
  email : String
  assessment_date : Nat
  height : Option ℚ
  bmi : Option ℚ
  blood_pressure : Option ℚ
  heart_rate : Option ℚ
  weight : Option ℚ
deriving DecidableEq

/-- A row of the MEMBER_CONDITION table: EMAIL, CONDITION_NAME, SEVERITY,
NOTES. -/
structure ConditionRow where
  email : String
  condition_name : String
  severity : String
  notes : String
deriving DecidableEq

/-- The database: the three tables, each in rowid order. -/
structure DB where
  members : List MemberRow
  assessments : List AssessmentRow
  conditions : List ConditionRow
deriving DecidableEq

/-- Error taxonomy of the record store (spec section 7). -/
inductive RecError where
  | validationError
  | notFoundError
deriving DecidableEq

/-! ### Record store operations, translated from the handlers in src/app.py -/

/-- Add Member handler (src/app.py lines 142-151): rejects an empty email with
a validation error, otherwise `INSERT INTO MEMBER ... VALUES (?, ?, ?, ?)`
appends the row (no uniqueness constraint is enforced). -/
def addMember (l : List MemberRow) (r : MemberRow) : Except RecError (List MemberRow) :=
  if r.email = "" then .error .validationError else .ok (l ++ [r])

/-- Edit Member get-by-email (src/app.py lines 178-180):
`SELECT * FROM MEMBER WHERE EMAIL = ?` followed by `row.iloc[0]`, i.e. the
first matching row in rowid order, if any. -/
def getMember (l : List MemberRow) (e : String) : Option MemberRow :=
  (l.filter (fun m => m.email == e)).head?

/-- Update Member handler (src/app.py lines 193-199):
`UPDATE MEMBER SET FIRST_NAME=?, LAST_NAME=?, GENDER=? WHERE EMAIL=?`.
The SQL UPDATE rewrites every matching row and raises nothing when no row
matches, so the operation never produces a not-found error. -/
def updateMember (l : List MemberRow) (fn ln g : String) (e : String) :
    Except RecError (List MemberRow) :=
  .ok (l.map fun m => if m.email == e then { m with first_name := fn, last_name := ln, gender := g } else m)

/-- Update Assessment handler (src/app.py lines 291-300):
`UPDATE MEMBER_ASSESSMENT SET HEIGHT=?, BMI=?, BLOOD_PRESSURE=?, HEART_RATE=?,
WEIGHT=? WHERE EMAIL=? AND ASSESSMENT_DATE=?`; again no row-count check, so an
absent key makes the statement a silent no-op. -/
def updateAssessment (l : List AssessmentRow) (h b p r w : ℚ) (e : String) (d : Nat) :
    Except RecError (List AssessmentRow) :=
  .ok (l.map fun a =>
    if a.email == e && a.assessment_date == d then
      { a with height := some h, bmi := some b, blood_pressure := some p,
               heart_rate := some r, weight := some w }
    else a)

/-- Add Condition handler (src/app.py lines 337-342): rejects an empty
condition name with a validation error, otherwise
`INSERT INTO MEMBER_CONDITION ...` appends the row. -/
def addCondition (l : List ConditionRow) (r : ConditionRow) : Except RecError (List ConditionRow) :=
  if r.condition_name = "" then .error .validationError else .ok (l ++ [r])

/-- `DELETE FROM MEMBER_ASSESSMENT WHERE EMAIL=?` (src/app.py line 211). -/
def delAssessmentsByEmail (db : DB) (e : String) : DB :=
  { db with assessments := db.assessments.filter fun a => !(a.email == e) }

/-- `DELETE FROM MEMBER_CONDITION WHERE EMAIL=?` (src/app.py line 212). -/
def delConditionsByEmail (db : DB) (e : String) : DB :=
  { db with conditions := db.conditions.filter fun c => !(c.email == e) }

/-- `DELETE FROM MEMBER WHERE EMAIL=?` (src/app.py line 213). -/
def delMemberByEmail (db : DB) (e : String) : DB :=
  { db with members := db.members.filter fun m => !(m.email == e) }

/-- Delete Member handler (src/app.py lines 210-213): the application-level
cascade, three sequential deletes — assessments, then conditions, then the
member row. -/
def deleteMemberCascade (db : DB) (e : String) : DB :=
  delMemberByEmail (delConditionsByEmail (delAssessmentsByEmail db e) e) e

/-- View Assessments date filter (src/app.py lines 258-269):
`(df["ASSESSMENT_DATE"] >= start_dt) & (df["ASSESSMENT_DATE"] <= end_dt)`,
keeping exactly the rows inside the closed range. -/
def filterAssessmentsByDate (l : List AssessmentRow) (d1 d2 : Nat) : List AssessmentRow :=
  l.filter fun a => decide (d1 ≤ a.assessment_date) && decide (a.assessment_date ≤ d2)

/-- `x or None` applied to a numeric form input (src/app.py line 246): Python
treats 0.0 as falsy, so an input of exactly 0 is replaced by NULL. -/
def orNull (x : ℚ) : Option ℚ :=
  if x = 0 then none else some x

/-- Add Assessment handler row construction (src/app.py lines 241-246): each of
the five metrics is passed through `... or None` before insertion. -/
def mkAssessment (e : String) (d : Nat) (h b p r w : ℚ) : AssessmentRow :=
  ⟨e, d, orNull h, orNull b, orNull p, orNull r, orNull w⟩

/-- Add Assessment handler insert (src/app.py lines 241-246):
`INSERT INTO MEMBER_ASSESSMENT ... VALUES (?, ?, ?, ?, ?, ?, ?)`. -/
def addAssessment (l : List AssessmentRow) (e : String) (d : Nat) (h b p r w : ℚ) :
    List AssessmentRow :=
  l ++ [mkAssessment e d h b p r w]

/-! ### Schema manager -/

/-- `table_exists` (src/app.py lines 32-36): queries `sqlite_master` for a
table of the given name; the schema is embedded as the list of table names. -/
def tableExists (schema : List String) (name : String) : Bool :=
  name ∈ schema

/-- The three record tables checked at startup (src/app.py line 39). -/
def requiredTables : List String :=
  ["MEMBER", "MEMBER_ASSESSMENT", "MEMBER_CONDITION"]

/-- Append a table name to the schema when absent. -/
def addIfAbsent (schema : List String) (t : String) : List String :=
  if t ∈ schema then schema else schema ++ [t]

/-- Modelled from the spec: `ensureSchema()` of the Schema Manager (spec
sections 2 and 4.1) — the `CREATE TABLE` statements live in an earlier revision
of the repository that is not under src/ (src/app.py only checks existence and
warns, lines 39-41).  Per the spec it creates each of the Member, Assessment
and Condition collections when absent and is a no-op otherwise. -/
def ensureSchema (schema : List String) : List String :=
  requiredTables.foldl addIfAbsent schema

/-! ### Aggregation reporter -/

/-- Result type of the Average BMI dashboard metric: the string "N/A", the
floating NaN that pandas propagates through `round`, or a number. -/
inductive Metric where
  | na
  | nan
  | val (q : ℚ)
deriving DecidableEq

/-- Round half-to-even to an integer (the rounding Python's builtin `round`
uses on ties). -/
def halfEven (q : ℚ) : ℤ :=
  let n := ⌊q⌋
  if q - n < 1/2 then n
  else if 1/2 < q - n then n + 1
  else if 2 ∣ n then n else n + 1

/-- `round(x, 2)`: round half-to-even at two decimal places. -/
def round2 (q : ℚ) : ℚ :=
  (halfEven (100 * q) : ℚ) / 100

/-- Dashboard Average BMI metric (src/app.py lines 68-69):
`round(assess_df["BMI"].mean(), 2) if not assess_df.empty else "N/A"`.
`Series.mean` skips NULLs: it divides the sum of the non-null BMI values by
their count, and is NaN when every value is null (then `round` propagates the
NaN). -/
def avgBMI (l : List AssessmentRow) : Metric :=
  if l = [] then .na
  else
    let vals := l.filterMap (·.bmi)
    if vals = [] then .nan
    else .val (round2 (vals.sum / (vals.length : ℚ)))

/-- Occurrence count of a condition name in the CONDITION_NAME column, as
`value_counts` counts it. -/
def condCount (n : String) (l : List ConditionRow) : Nat :=
  (l.map ConditionRow.condition_name).count n

/-- Dashboard Top Condition metric (src/app.py lines 70-71):
`cond_df["CONDITION_NAME"].value_counts().idxmax() if not cond_df.empty else
"N/A"`.  `value_counts` tallies occurrences and sorts descending (stably, in
first-appearance key order), and `idxmax` takes the first index attaining the
maximum — i.e. the first-encountered name of maximal count. -/
def topCondition (l : List ConditionRow) : String :=
  (((l.map ConditionRow.condition_name).argmax fun n => condCount n l).getD "N/A")

/-! ### Helper lemmas -/

theorem mem_filter_not_beq {α : Type} [BEq α] [LawfulBEq α] (f : α → String) (l : List α)
    (e : String) (r : α) :
    r ∈ l.filter (fun a => !(f a == e)) ↔ r ∈ l ∧ f r ≠ e := by
  simp [List.mem_filter]

theorem map_if_not_mem {α : Type} (l : List α) (p : α → Bool) (f : α → α)
    (h : ∀ a ∈ l, p a = false) :
    (l.map fun a => if p a then f a else a) = l := by
  induction l with
  | nil => rfl
  | cons a l ih =>
    have ha : p a = false := h a (by simp)
    simp only [List.map_cons, ha, if_neg Bool.false_ne_true]
    rw [ih fun a ha => h a (by simp [ha])]

theorem ensureSchema_mem (schema : List String) (t : String) (ht : t ∈ requiredTables) :
    tableExists (ensureSchema schema) t = true := by
  have key : ∀ (ts : List String) (s : List String), t ∈ ts ∨ t ∈ s → t ∈ ts.foldl addIfAbsent s := by
    intro ts
    induction ts with
    | nil => intro s h; simpa using h
    | cons a ts ih =>
      intro s h
      simp only [List.foldl_cons]
      apply ih
      rcases h with h | h
      · rcases List.mem_cons.mp h with h | h
        · right; subst h
          unfold addIfAbsent
          split
          · assumption
          · simp
        · left; exact h
      · right
        unfold addIfAbsent
        split
        · exact h
        · simp [h]
  simp only [tableExists, decide_eq_true_eq]
  exact key requiredTables schema (Or.inl ht)

theorem ensureSchema_noop (schema : List String)
    (h : ∀ t ∈ requiredTables, tableExists schema t = true) :
    ensureSchema schema = schema := by
  have key : ∀ (ts : List String) (s : List String), (∀ t ∈ ts, t ∈ s) →
      ts.foldl addIfAbsent s = s := by
    intro ts
    induction ts with
    | nil => intro s _; rfl
    | cons a ts ih =>
      intro s hmem
      simp only [List.foldl_cons]
      have ha : a ∈ s := hmem a (by simp)
      rw [show addIfAbsent s a = s from by unfold addIfAbsent; simp [ha]]
      exact ih s fun t ht => hmem t (by simp [ht])
  apply key
  intro t ht
  have := h t ht
  simpa [tableExists] using this

theorem ensureSchema_superset (schema : List String) (t : String) (h : t ∈ schema) :
    t ∈ ensureSchema schema := by
  have key : ∀ (ts : List String) (s : List String), t ∈ s → t ∈ ts.foldl addIfAbsent s := by
    intro ts
    induction ts with
    | nil => intro s h; exact h
    | cons a ts ih =>
      intro s hs
      simp only [List.foldl_cons]
      apply ih
      unfold addIfAbsent
      split
      · exact hs
      · simp [hs]
  exact key requiredTables schema h

theorem avgBMI_eval (l : List AssessmentRow) (v : ℚ) (vs : List ℚ)
    (hv : l.filterMap (·.bmi) = v :: vs) :
    avgBMI l = .val (round2 ((v :: vs).sum / ((v :: vs).length : ℚ))) := by
  have hl : l ≠ [] := by
    intro h
    rw [h] at hv
    simp at hv
  simp [avgBMI, hl, hv]

/-! ### Claim theorems -/

/-- C1: deleting a Member by email removes the member row and every assessment
and condition sharing that email, executed as the three sequential deletes
(assessments, then conditions, then the member); afterwards none of the three
collections contains a row with that email, and rows with other emails are
exactly preserved. -/
theorem deleteMemberCascade_complete (db : DB) (e : String) :
    deleteMemberCascade db e
      = delMemberByEmail (delConditionsByEmail (delAssessmentsByEmail db e) e) e ∧
    (∀ m : MemberRow, m ∈ (deleteMemberCascade db e).members ↔ m ∈ db.members ∧ m.email ≠ e) ∧
    (∀ a : AssessmentRow,
      a ∈ (deleteMemberCascade db e).assessments ↔ a ∈ db.assessments ∧ a.email ≠ e) ∧
    (∀ c : ConditionRow,
      c ∈ (deleteMemberCascade db e).conditions ↔ c ∈ db.conditions ∧ c.email ≠ e) := by
  refine ⟨rfl, ?_, ?_, ?_⟩
  · intro m
    exact mem_filter_not_beq MemberRow.email db.members e m
  · intro a
    exact mem_filter_not_beq AssessmentRow.email db.assessments e a
  · intro c
    exact mem_filter_not_beq ConditionRow.email db.conditions e c

/-- C4: creating a Member with an empty email, or a Condition with an empty
condition name, fails with a validation error, so no row is inserted and the
collection is left unchanged. -/
theorem create_empty_required_field_fails :
    (∀ (l : List MemberRow) (r : MemberRow), r.email = "" →
      addMember l r = .error .validationError) ∧
    (∀ (l : List ConditionRow) (r : ConditionRow), r.condition_name = "" →
      addCondition l r = .error .validationError) := by
  constructor
  · intro l r h
    simp [addMember, h]
  · intro l r h
    simp [addCondition, h]

/-- C4 witness: concrete members and conditions with the empty required field
are rejected. -/
theorem create_empty_required_field_fails_witness :
    addMember [] ⟨"", "Ann", "Lee", "Female"⟩ = .error .validationError ∧
    addCondition [] ⟨"a@x.com", "", "Mild", ""⟩ = .error .validationError :=
  ⟨create_empty_required_field_fails.1 [] ⟨"", "Ann", "Lee", "Female"⟩ rfl,
   create_empty_required_field_fails.2 [] ⟨"a@x.com", "", "Mild", ""⟩ rfl⟩

/-- C7: for every date range with d1 ≤ d2 the assessment date filter returns
exactly the rows whose date lies in the closed interval [d1, d2]. -/
theorem filterAssessmentsByDate_exact (l : List AssessmentRow) (d1 d2 : Nat) (hle : d1 ≤ d2) :
    ∀ a : AssessmentRow,
      a ∈ filterAssessmentsByDate l d1 d2 ↔
        a ∈ l ∧ d1 ≤ a.assessment_date ∧ a.assessment_date ≤ d2 := by
  intro a
  simp [filterAssessmentsByDate, List.mem_filter, and_assoc]

/-- C7 witness: a concrete in-range row is kept and an out-of-range row
dropped by the filter at the range [1, 3]. -/
theorem filterAssessmentsByDate_exact_witness :
    (⟨"a@x.com", 2, none, none, none, none, none⟩ : AssessmentRow) ∈
      filterAssessmentsByDate
        [⟨"a@x.com", 2, none, none, none, none, none⟩,
         ⟨"a@x.com", 9, none, none, none, none, none⟩] 1 3 :=
  (filterAssessmentsByDate_exact _ 1 3 (by decide) _).mpr ⟨by decide, by decide, by decide⟩

/-- C10: every numeric metric entered as exactly 0 on the add-assessment form
is stored as NULL, and no stored metric ever carries the value 0 — a zero
measurement is indistinguishable from an absent one in the stored record. -/
theorem addAssessment_zero_is_null (e : String) (d : Nat) (h b p r w : ℚ) :
    addAssessment [] e d h b p r w = [mkAssessment e d h b p r w] ∧
    (h = 0 → (mkAssessment e d h b p r w).height = none) ∧
    (b = 0 → (mkAssessment e d h b p r w).bmi = none) ∧
    (p = 0 → (mkAssessment e d h b p r w).blood_pressure = none) ∧
    (r = 0 → (mkAssessment e d h b p r w).heart_rate = none) ∧
    (w = 0 → (mkAssessment e d h b p r w).weight = none) ∧
    (mkAssessment e d h b p r w).height ≠ some 0 ∧
    (mkAssessment e d h b p r w).bmi ≠ some 0 ∧
    (mkAssessment e d h b p r w).blood_pressure ≠ some 0 ∧
    (mkAssessment e d h b p r w).heart_rate ≠ some 0 ∧
    (mkAssessment e d h b p r w).weight ≠ some 0 := by
  have hz : ∀ x : ℚ, x = 0 → orNull x = none := by
    intro x hx
    simp [orNull, hx]
  have hnz : ∀ x : ℚ, orNull x ≠ some 0 := by
    intro x
    unfold orNull
    split
    · simp
    · simp
      intro hc
      exact absurd hc (by assumption)
  exact ⟨by simp [addAssessment],
    fun hx => hz h hx, fun hx => hz b hx, fun hx => hz p hx, fun hx => hz r hx, fun hx => hz w hx,
    hnz h, hnz b, hnz p, hnz r, hnz w⟩

/-- C10 witness: an assessment entered with every metric 0 stores NULL in all
five metric columns. -/
theorem addAssessment_zero_is_null_witness :
    (mkAssessment "a@x.com" 1 0 0 0 0 0).bmi = none :=
  (addAssessment_zero_is_null "a@x.com" 1 0 0 0 0 0).2.2.1 rfl

/-- C9: `ensureSchema` is idempotent — it makes the three record collections
present, is a no-op when they already exist — and `tableExists` returns true
exactly when the named collection is present. -/
theorem ensureSchema_idempotent (schema : List String) :
    ensureSchema (ensureSchema schema) = ensureSchema schema ∧
    (∀ t ∈ requiredTables, tableExists (ensureSchema schema) t = true) ∧
    ((∀ t ∈ requiredTables, tableExists schema t = true) → ensureSchema schema = schema) ∧
    (∀ n : String, tableExists schema n = true ↔ n ∈ schema) := by
  refine ⟨?_, ?_, ?_, ?_⟩
  · exact ensureSchema_noop _ fun t ht => ensureSchema_mem schema t ht
  · exact fun t ht => ensureSchema_mem schema t ht
  · exact ensureSchema_noop schema
  · intro n
    simp [tableExists]

/-- C9 witness: on the empty schema `ensureSchema` creates the three tables and
applying it again is a no-op; a schema already holding the three tables is left
unchanged. -/
theorem ensureSchema_idempotent_witness :
    tableExists (ensureSchema []) "MEMBER" = true ∧
    ensureSchema ["MEMBER", "MEMBER_ASSESSMENT", "MEMBER_CONDITION"]
      = ["MEMBER", "MEMBER_ASSESSMENT", "MEMBER_CONDITION"] :=
  ⟨(ensureSchema_idempotent []).2.1 "MEMBER" (by decide),
   (ensureSchema_idempotent ["MEMBER", "MEMBER_ASSESSMENT", "MEMBER_CONDITION"]).2.2.1
     (by decide)⟩

/-- The Condition table holding the multiset with "Knee Pain" twice and
"Back Pain" once. -/
def exConditions : List ConditionRow :=
  [⟨"a@x.com", "Knee Pain", "Mild", ""⟩,
   ⟨"b@x.com", "Knee Pain", "Mild", ""⟩,
   ⟨"c@x.com", "Back Pain", "Mild", ""⟩]

/-- C2 counterexample: duplicates are accepted (no uniqueness constraint), and
`get` returns the first matching row in rowid order, so creating Ann under an
email already held by Bob and then getting that email returns Bob's fields,
not Ann's. -/
theorem create_get_cex :
    addMember [⟨"a@x.com", "Bob", "B", "Male"⟩] ⟨"a@x.com", "Ann", "Lee", "Female"⟩
      = .ok [⟨"a@x.com", "Bob", "B", "Male"⟩, ⟨"a@x.com", "Ann", "Lee", "Female"⟩] ∧
    getMember [⟨"a@x.com", "Bob", "B", "Male"⟩, ⟨"a@x.com", "Ann", "Lee", "Female"⟩] "a@x.com"
      = some ⟨"a@x.com", "Bob", "B", "Male"⟩ ∧
    (⟨"a@x.com", "Bob", "B", "Male"⟩ : MemberRow).first_name
      ≠ (⟨"a@x.com", "Ann", "Lee", "Female"⟩ : MemberRow).first_name := by
  refine ⟨rfl, rfl, by decide⟩

/-- C2 (amended): for every valid Member record r whose email is not already
present in the collection, create(r) followed by get(r.email) returns r — all
four fields agree. -/
theorem create_get_roundtrip (l : List MemberRow) (r : MemberRow) (l' : List MemberRow)
    (hv : r.email ≠ "") (hfresh : ∀ m ∈ l, m.email ≠ r.email)
    (hok : addMember l r = .ok l') :
    getMember l' r.email = some r := by
  rw [addMember, if_neg hv] at hok
  injection hok with hok
  subst hok
  simp only [getMember, List.filter_append]
  have h1 : l.filter (fun m => m.email == r.email) = [] :=
    List.filter_eq_nil_iff.mpr (fun m hm => by simp [hfresh m hm])
  rw [h1]
  simp

/-- C2 witness: creating Ann into the empty collection and getting her email
returns her record. -/
theorem create_get_roundtrip_witness :
    getMember [⟨"a@x.com", "Ann", "Lee", "Female"⟩] "a@x.com"
      = some ⟨"a@x.com", "Ann", "Lee", "Female"⟩ :=
  create_get_roundtrip [] ⟨"a@x.com", "Ann", "Lee", "Female"⟩
    [⟨"a@x.com", "Ann", "Lee", "Female"⟩] (by decide) (by simp) rfl

/-- C3 counterexample: updating a key absent from the empty Member collection
returns success with the collection unchanged — the SQL UPDATE matches zero
rows and raises nothing — rather than failing with a not-found error. -/
theorem update_absent_cex :
    updateMember [] "Ann" "Lee" "Female" "a@x.com" = .ok [] ∧
    (Except.ok [] : Except RecError (List MemberRow)) ≠ .error .notFoundError :=
  ⟨rfl, by simp⟩

/-- C3 (amended): an update whose key is absent is a silent no-op — it neither
raises a not-found error nor creates a row: it returns success with the
collection unchanged (shown for the Member and Assessment update handlers). -/
theorem update_absent_noop (l : List MemberRow) (fn ln g e : String)
    (la : List AssessmentRow) (h b p r w : ℚ) (d : Nat)
    (hm : ∀ m ∈ l, m.email ≠ e)
    (ha : ∀ a ∈ la, ¬(a.email = e ∧ a.assessment_date = d)) :
    updateMember l fn ln g e = .ok l ∧ updateAssessment la h b p r w e d = .ok la := by
  constructor
  · unfold updateMember
    congr 1
    apply map_if_not_mem
    intro a hal
    simp [hm a hal]
  · unfold updateAssessment
    congr 1
    apply map_if_not_mem
    intro a hal
    have hna := ha a hal
    by_cases hae : a.email = e
    · have hd : a.assessment_date ≠ d := fun hdd => hna ⟨hae, hdd⟩
      simp [hd]
    · simp [hae]

/-- C3 witness: updating the absent email on a one-row Member collection and
the absent key on the empty Assessment collection both return the collections
unchanged. -/
theorem update_absent_noop_witness :
    updateMember [⟨"b@x.com", "Bob", "B", "Male"⟩] "Ann" "Lee" "Female" "a@x.com"
      = .ok [⟨"b@x.com", "Bob", "B", "Male"⟩] ∧
    updateAssessment [] 1 2 3 4 5 "a@x.com" 7 = .ok [] :=
  update_absent_noop [⟨"b@x.com", "Bob", "B", "Male"⟩] "Ann" "Lee" "Female" "a@x.com"
    [] 1 2 3 4 5 7 (by decide) (by simp)

/-- C5 counterexample: on a non-empty Assessment table whose BMI column is all
NULL the metric is NaN (pandas mean of an all-null column), not "N/A"; and the
displayed value is the mean rounded to two decimals, which differs from the
exact arithmetic mean 68/3 on BMI values 22, 23, 23. -/
theorem avgBMI_cex :
    avgBMI [⟨"a@x.com", 1, none, none, none, none, none⟩] = .nan ∧
    Metric.nan ≠ Metric.na ∧
    avgBMI [⟨"a@x.com", 1, none, some 22, none, none, none⟩,
            ⟨"a@x.com", 2, none, some 23, none, none, none⟩,
            ⟨"a@x.com", 3, none, some 23, none, none, none⟩] = .val (2267 / 100) ∧
    (2267 / 100 : ℚ) ≠ (22 + 23 + 23) / 3 := by
  refine ⟨rfl, by decide, ?_, by norm_num⟩
  have h := avgBMI_eval
    [⟨"a@x.com", 1, none, some 22, none, none, none⟩,
     ⟨"a@x.com", 2, none, some 23, none, none, none⟩,
     ⟨"a@x.com", 3, none, some 23, none, none, none⟩] 22 [23, 23] rfl
  rw [h]
  congr 1
  have hs : (((22 : ℚ) :: [23, 23]).sum / (((22 : ℚ) :: [23, 23]).length : ℚ)) = 68 / 3 := by
    norm_num
  rw [hs]
  unfold round2 halfEven
  rw [show ((100 : ℚ) * (68 / 3)) = 6800 / 3 by norm_num]
  rw [show ⌊(6800 : ℚ) / 3⌋ = 2266 by norm_num [Int.floor_eq_iff]]
  rw [if_neg (by norm_num), if_pos (by norm_num)]
  norm_num

/-- C5 (amended): the average-BMI metric is "N/A" when the Assessment table is
empty (never a division-by-zero fault); NaN when assessments exist but every
BMI is null; and otherwise the arithmetic mean of the non-null BMI values
rounded half-to-even at two decimal places. -/
theorem avgBMI_spec (l : List AssessmentRow) :
    (l = [] → avgBMI l = .na) ∧
    (l ≠ [] → l.filterMap (·.bmi) = [] → avgBMI l = .nan) ∧
    (∀ v vs, l.filterMap (·.bmi) = v :: vs →
      avgBMI l = .val (round2 ((v :: vs).sum / ((v :: vs).length : ℚ)))) := by
  refine ⟨?_, ?_, ?_⟩
  · intro h
    simp [avgBMI, h]
  · intro h1 h2
    simp [avgBMI, h1, h2]
  · intro v vs hv
    exact avgBMI_eval l v vs hv

/-- C5 witness: a single assessment with BMI 22 yields the metric 22. -/
theorem avgBMI_spec_witness :
    avgBMI [⟨"a@x.com", 1, none, some 22, none, none, none⟩] = .val 22 := by
  have h := (avgBMI_spec [⟨"a@x.com", 1, none, some 22, none, none, none⟩]).2.2 22 [] rfl
  rw [h]
  congr 1
  norm_num [round2, halfEven]

/-- C6: the most-common-condition metric returns a condition name occurring in
the table whose occurrence count is maximal, ties broken by first-encountered
order (smallest index of first occurrence in the CONDITION_NAME column); it is
"N/A" on an empty Condition table; and on the multiset with "Knee Pain" twice
and "Back Pain" once it returns "Knee Pain". -/
theorem topCondition_spec :
    topCondition [] = "N/A" ∧
    (∀ l : List ConditionRow, l ≠ [] →
      topCondition l ∈ l.map ConditionRow.condition_name ∧
      (∀ n ∈ l.map ConditionRow.condition_name,
        condCount n l ≤ condCount (topCondition l) l) ∧
      (∀ n ∈ l.map ConditionRow.condition_name,
        condCount n l = condCount (topCondition l) l →
        (l.map ConditionRow.condition_name).indexOf (topCondition l)
          ≤ (l.map ConditionRow.condition_name).indexOf n)) ∧
    topCondition exConditions = "Knee Pain" := by
  refine ⟨rfl, ?_, by decide⟩
  intro l hl
  have hmap : l.map ConditionRow.condition_name ≠ [] := by
    simpa using hl
  obtain ⟨t, ht⟩ : ∃ t, (l.map ConditionRow.condition_name).argmax (fun n => condCount n l)
      = some t := by
    cases h : (l.map ConditionRow.condition_name).argmax (fun n => condCount n l) with
    | none => exact absurd (List.argmax_eq_none.mp h) hmap
    | some t => exact ⟨t, rfl⟩
  have htmem : t ∈ (l.map ConditionRow.condition_name).argmax (fun n => condCount n l) := ht
  have htop : topCondition l = t := by
    simp [topCondition, ht]
  rw [htop]
  refine ⟨List.argmax_mem htmem, ?_, ?_⟩
  · intro n hn
    exact List.le_of_mem_argmax hn htmem
  · intro n hn hcnt
    exact List.index_of_argmax htmem hn (le_of_eq hcnt.symm)

/-- C6 witness: on the Knee-Pain/Back-Pain table the metric is a name present
in the CONDITION_NAME column. -/
theorem topCondition_spec_witness :
    topCondition exConditions ∈ exConditions.map ConditionRow.condition_name :=
  (topCondition_spec.2.1 exConditions (by decide)).1

/-! ### Member search: SQLite LIKE semantics -/

/-- ASCII lower-casing, the case folding SQLite's default LIKE applies. -/
def lc (c : Char) : Char :=
  if 'A' ≤ c ∧ c ≤ 'Z' then Char.ofNat (c.toNat + 32) else c

/-- SQLite LIKE pattern matching over character lists: a metacharacter
percent matches any sequence (equivalently, the rest of the pattern matches
some suffix), an underscore matches any single character, and any other
pattern character matches a string character equal to it up to ASCII case. -/
def likeM : List Char → List Char → Bool
  | [], s => s.isEmpty
  | p :: ps, s =>
    if p = '%' then s.tails.any fun t => likeM ps t
    else
      match s with
      | [] => false
      | c :: t => (p == '_' || lc p == lc c) && likeM ps t

/-- The search predicate of the View Members tab (src/app.py lines 160-163):
`EMAIL LIKE ? OR FIRST_NAME LIKE ? OR LAST_NAME LIKE ?` with the parameter
built as the search string wrapped in percent signs. -/
def memberMatches (q : String) (m : MemberRow) : Bool :=
  let pat := '%' :: (q.data ++ ['%'])
  likeM pat m.email.data || likeM pat m.first_name.data || likeM pat m.last_name.data

/-- View Members search (src/app.py lines 160-163). -/
def searchMembers (q : String) (l : List MemberRow) : List MemberRow :=
  l.filter (memberMatches q)

/-- Case-insensitive "contains": q is a substring of s after ASCII
lower-casing. -/
def containsCI (q s : String) : Prop :=
  (q.data.map lc) <:+: (s.data.map lc)

instance (q s : String) : Decidable (containsCI q s) :=
  List.decidableInfix _ _

/-- The search string holds no LIKE metacharacter. -/
def noMeta (q : String) : Bool :=
  q.data.all fun c => !(c == '%' || c == '_')

theorem likeM_literal (q : List Char) (hq : ∀ c ∈ q, c ≠ '%' ∧ c ≠ '_') (ps : List Char) :
    ∀ s : List Char, likeM (q ++ ps) s = true ↔
      ∃ a b, s = a ++ b ∧ a.map lc = q.map lc ∧ likeM ps b = true := by
  induction q with
  | nil =>
    intro s
    constructor
    · intro h
      exact ⟨[], s, rfl, rfl, h⟩
    · rintro ⟨a, b, hs, ha, hb⟩
      have ha' : a = [] := by simpa using ha
      subst ha'
      rw [hs]
      exact hb
  | cons c q ih =>
    have ihq : ∀ x ∈ q, x ≠ '%' ∧ x ≠ '_' := fun x hx => hq x (List.mem_cons_of_mem c hx)
    have hc := hq c (List.mem_cons_self c q)
    intro s
    cases s with
    | nil =>
      apply iff_of_false
      · simp [likeM, if_neg hc.1]
      · rintro ⟨a, b, hs, ha, hb⟩
        have ha0 : a = [] := (List.append_eq_nil.mp hs.symm).1
        subst ha0
        simp at ha
    | cons d t =>
      have hbeq : (c == '_') = false := beq_eq_false_iff_ne.mpr hc.2
      have hstep : likeM ((c :: q) ++ ps) (d :: t)
          = ((c == '_' || lc c == lc d) && likeM (q ++ ps) t) := by
        show (if c = '%' then (d :: t).tails.any fun u => likeM (q ++ ps) u
              else (c == '_' || lc c == lc d) && likeM (q ++ ps) t) = _
        rw [if_neg hc.1]
      rw [hstep, hbeq, Bool.false_or, Bool.and_eq_true, beq_iff_eq, ih ihq t]
      constructor
      · rintro ⟨hcd, a, b, ht, ha, hb⟩
        refine ⟨d :: a, b, by rw [ht, List.cons_append], ?_, hb⟩
        simp [ha, hcd]
      · rintro ⟨a, b, hs, ha, hb⟩
        cases a with
        | nil => simp at ha
        | cons d' a' =>
          injection hs with h1 h2
          subst h1
          simp only [List.map_cons] at ha
          injection ha with g1 g2
          exact ⟨g1.symm, a', b, h2, g2, hb⟩

theorem likeM_pct_any (b : List Char) : likeM ['%'] b = true := by
  rw [show likeM ['%'] b = b.tails.any fun t => likeM [] t from rfl]
  rw [List.any_eq_true]
  exact ⟨[], (List.mem_tails _ _).mpr List.nil_suffix, rfl⟩

theorem likeM_contains (q : List Char) (hq : ∀ c ∈ q, c ≠ '%' ∧ c ≠ '_') (s : List Char) :
    likeM ('%' :: (q ++ ['%'])) s = true ↔ (q.map lc) <:+: (s.map lc) := by
  have hun : likeM ('%' :: (q ++ ['%'])) s
      = s.tails.any fun t => likeM (q ++ ['%']) t := rfl
  rw [hun, List.any_eq_true]
  constructor
  · rintro ⟨t, htmem, ht⟩
    have hsuf : t <:+ s := (List.mem_tails _ _).mp htmem
    obtain ⟨a, b, ht2, ha, _⟩ := (likeM_literal q hq ['%'] t).mp ht
    obtain ⟨u, hu⟩ := hsuf
    refine ⟨u.map lc, b.map lc, ?_⟩
    rw [← hu, ht2]
    simp [ha]
  · rintro ⟨x, y, hxy⟩
    rw [List.append_assoc] at hxy
    obtain ⟨s1, s2, hs, _, hm2⟩ := List.map_eq_append_iff.mp hxy.symm
    obtain ⟨a, b, hs2, hma, _⟩ := List.map_eq_append_iff.mp hm2
    refine ⟨s2, (List.mem_tails _ _).mpr ⟨s1, hs.symm⟩, ?_⟩
    exact (likeM_literal q hq ['%'] s2).mpr ⟨a, b, hs2, hma, likeM_pct_any b⟩

/-- C8 counterexample: the search string is passed to SQL LIKE unescaped, so
its metacharacters act as wildcards: searching for an underscore returns a
member none of whose searched fields contains an underscore. -/
theorem searchMembers_cex :
    searchMembers "_" [⟨"a", "b", "c", "d"⟩] = [⟨"a", "b", "c", "d"⟩] ∧
    ¬ containsCI "_" "a" ∧ ¬ containsCI "_" "b" ∧ ¬ containsCI "_" "c" := by
  refine ⟨rfl, by decide, by decide, by decide⟩

/-- C8 (amended): for every non-empty search string q containing no LIKE
metacharacter (no percent sign and no underscore), the Member search returns
exactly the rows whose email, first name or last name contains q as a
substring, case-insensitively under ASCII case folding. -/
theorem searchMembers_exact (q : String) (l : List MemberRow)
    (hq : q ≠ "") (hm : noMeta q = true) :
    ∀ m : MemberRow, m ∈ searchMembers q l ↔
      m ∈ l ∧ (containsCI q m.email ∨ containsCI q m.first_name ∨ containsCI q m.last_name) := by
  have hq' : ∀ c ∈ q.data, c ≠ '%' ∧ c ≠ '_' := by
    intro c hc
    simp only [noMeta] at hm
    have h2 := List.all_eq_true.mp hm c hc
    simpa [not_or] using h2
  intro m
  simp only [searchMembers, List.mem_filter, memberMatches, Bool.or_eq_true]
  rw [likeM_contains q.data hq' m.email.data, likeM_contains q.data hq' m.first_name.data,
    likeM_contains q.data hq' m.last_name.data]
  simp [containsCI, or_assoc]

/-- C8 witness: searching "an" finds Ann (first name contains "an"
case-insensitively), as the characterization predicts. -/
theorem searchMembers_exact_witness :
    (⟨"a@x.com", "Ann", "Lee", "Female"⟩ : MemberRow) ∈
      searchMembers "an" [⟨"a@x.com", "Ann", "Lee", "Female"⟩] :=
  (searchMembers_exact "an" [⟨"a@x.com", "Ann", "Lee", "Female"⟩] (by decide) (by decide)
      ⟨"a@x.com", "Ann", "Lee", "Female"⟩).mpr
    ⟨by decide, Or.inr (Or.inl (by decide))⟩

end FitnessCentre
